import Mathlib

/-!
Shallow embedding of `pkg/aws/metadata/server.go` (kiam metadata proxy
server): configuration defaults, client-IP parsing and resolution, route
registration/dispatch order, the error-handling/metrics guard around
handlers, and the start/stop lifecycle.  Durations are modelled in whole
seconds (`time.Second * 5` becomes `5`); Go `int` status codes become `Int`;
Go functions returning `(T, error)` become `Except String T`.
-/

namespace Kiam

/-- Embeds `ServerConfig` (server.go).  `MaxElapsedTime` is in seconds. -/
structure ServerConfig where
  ListenPort : Int
  MetadataEndpoint : String
  AllowIPQuery : Bool
  MaxElapsedTime : Nat
deriving DecidableEq, Repr

/-- Embeds `NewConfig(port int) *ServerConfig`. -/
def NewConfig (port : Int) : ServerConfig :=
  { MetadataEndpoint := "http://169.254.169.254"
    ListenPort := port
    AllowIPQuery := false
    MaxElapsedTime := 10 }

/-- Model of Go `strings.Split(l, sep)` for a one-character separator,
working on the string's character list.  `strings.Split("", sep)` is
`[""]`, and each separator occurrence opens a new (possibly empty) field. -/
def splitCh (sep : Char) : List Char → List (List Char)
  | [] => [[]]
  | c :: cs =>
    match splitCh sep cs with
    | [] => [[]]
    | h :: t => if c = sep then [] :: h :: t else (c :: h) :: t

/-- Model of Go `strings.Join(parts, sep)` for a one-character separator. -/
def joinCh (sep : Char) : List (List Char) → List Char
  | [] => []
  | [x] => x
  | x :: y :: t => x ++ sep :: joinCh sep (y :: t)

/-- Embeds `ParseClientIP(addr string) (string, error)`: split on every
colon; fewer than two parts is a format error; otherwise re-join all but
the final part with colons. -/
def ParseClientIP (addr : String) : Except String String :=
  let parts := splitCh ':' addr.data
  if parts.length < 2 then
    Except.error ("incorrect format, expected ip:port, was: " ++ addr)
  else
    Except.ok (String.mk (joinCh ':' (parts.take (parts.length - 1))))

/-- The request data consumed by this file's handlers.  `formIP` embeds
`req.Form.Get("ip")`, which yields `""` both when the parameter is absent
and when it is present but empty. -/
structure Request where
  method : String
  path : String
  formIP : String
  remoteAddr : String
deriving DecidableEq, Repr

/-- Embeds `(s *Server) clientIP(req *http.Request) (string, error)`. -/
def clientIP (cfg : ServerConfig) (req : Request) : Except String String :=
  if cfg.AllowIPQuery then
    if req.formIP ≠ "" then Except.ok req.formIP
    else ParseClientIP req.remoteAddr
  else ParseClientIP req.remoteAddr

/-- Model of Go `context.WithTimeout(parent, d)` at time `now`, tracking
only the deadline: the derived context's deadline is `now + d`, further
capped by the parent's deadline when the parent already has an earlier
one. -/
def withTimeout (parent : Option Nat) (now d : Nat) : Option Nat :=
  match parent with
  | none => some (now + d)
  | some p => some (min p (now + d))

/-- Embeds the constant `handlerMaxDuration = time.Second * 5`, in
seconds. -/
def handlerMaxDuration : Nat := 5

/-- Embeds `getStatusBucket(status int) string`. -/
def getStatusBucket (status : Int) : String :=
  if 200 ≤ status ∧ status < 300 then "2xx"
  else if 300 ≤ status ∧ status < 400 then "3xx"
  else if 400 ≤ status ∧ status < 500 then "4xx"
  else if 500 ≤ status ∧ status < 600 then "5xx"
  else "unknown"

/-- Embeds the meter key built in `getResponseMeter`:
`fmt.Sprintf("handlerResponse-%s.%s", name, bucket)`. -/
def getResponseMeterName (name : String) (result : Int) : String :=
  "handlerResponse-" ++ name ++ "." ++ getStatusBucket result

/-- Modelled from the spec: `khttp.RequestFields` (package `pkg/http`, not
under `src/`) supplies the log fields; the spec says errors are logged
"with request metadata (method, path, identity if available)". -/
def RequestFields (req : Request) : List (String × String) :=
  [("method", req.method), ("path", req.path)]

/-- The observable effects of one guarded handler invocation in
`errorHandler`: the context deadline handed to the handler, the handler's
returned status, the meters marked (key, amount), what `http.Error` wrote
(message, status) if anything, and what was logged (fields, status,
message) if anything. -/
structure GuardResult where
  handlerDeadline : Option Nat
  status : Int
  metersMarked : List (String × Nat)
  wroteError : Option (String × Int)
  logged : Option (List (String × String) × Int × String)
deriving DecidableEq, Repr

/-- Embeds `errorHandler(name string, handle handler)`: derive a context
from the request's context with a `handlerMaxDuration` timeout, invoke the
handler with it, mark the `(name, bucket)` meter by 1 unconditionally, and
on a non-nil error log it (with the request fields and status) and write
it as the HTTP error body with the returned status.  The source function
is package-level and closes over no `ServerConfig`, so the embedding takes
none: `MaxElapsedTime` cannot be consulted. -/
def errorHandler (name : String)
    (handle : Option Nat → Request → Int × Option String)
    (now : Nat) (reqDeadline : Option Nat) (req : Request) : GuardResult :=
  let ctx := withTimeout reqDeadline now handlerMaxDuration
  let res := handle ctx req
  { handlerDeadline := ctx
    status := res.1
    metersMarked := [(getResponseMeterName name res.1, 1)]
    wroteError := res.2.map (fun e => (e, res.1))
    logged := res.2.map (fun e => (RequestFields req, res.1, e)) }

/-- The six handlers `Serve` registers on the router. -/
inductive Route
  | metrics
  | ping
  | health
  | roleList
  | credentials
  | passthrough
deriving DecidableEq, Repr

/-- `hasPrefixCh pre l` decides whether `pre` is a prefix of `l`. -/
def hasPrefixCh : List Char → List Char → Bool
  | [], _ => true
  | _ :: _, [] => false
  | a :: as, b :: bs => a = b && hasPrefixCh as bs

/-- The literal tail shared by the two credential route templates. -/
def credsSuffix : List Char := "/meta-data/iam/security-credentials/".data

/-- Pattern `"/metrics"`: an exact literal match. -/
def matchMetricsPath (p : String) : Bool := p == "/metrics"

/-- Pattern `"/ping"`: an exact literal match. -/
def matchPingPath (p : String) : Bool := p == "/ping"

/-- Pattern `"/health"`: an exact literal match. -/
def matchHealthPath (p : String) : Bool := p == "/health"

/-- Pattern `"/{version}/meta-data/iam/security-credentials/"`: the mux
variable `{version}` compiles to the regexp `[^/]+` (one or more
non-slash characters), followed by the literal tail, matching the whole
path. -/
def matchRoleListPath (p : String) : Bool :=
  match p.data with
  | '/' :: rest =>
    let v := rest.takeWhile (fun c => c ≠ '/')
    decide (v ≠ []) && decide (rest.drop v.length = credsSuffix)
  | _ => false

/-- Pattern `"/{version}/meta-data/iam/security-credentials/{role:.*}"`:
as above, then `{role:.*}` compiles to the regexp `.*`, which matches any
characters (slashes included) except newline — Go regexps are compiled
without the `s` flag, so `.` never matches `'\n'`. -/
def matchCredsPath (p : String) : Bool :=
  match p.data with
  | '/' :: rest =>
    let v := rest.takeWhile (fun c => c ≠ '/')
    decide (v ≠ []) && hasPrefixCh credsSuffix (rest.drop v.length) &&
      decide ('\n' ∉ (rest.drop v.length).drop credsSuffix.length)
  | _ => false

/-- Pattern `"/{path:.*}"`: a leading slash, then `.*` — any characters
except newline. -/
def matchCatchAllPath (p : String) : Bool :=
  match p.data with
  | '/' :: rest => decide ('\n' ∉ rest)
  | _ => false

/-- The route-matching step of the router built in `Serve`: gorilla/mux
tries routes in the order they were registered and the first matching
route wins.  `Serve` registers `/metrics`, `/ping`, `/health`, the
role-listing template, the credentials template, and finally (after the
metadata URL parses) the catch-all `/{path:.*}` bound to the reverse
proxy; `none` means no registered route matches.  Matching is only
reached for paths the router's `ServeHTTP` did not already answer with a
clean-path redirect — see `dispatchFor`. -/
def routeFor (p : String) : Option Route :=
  if matchMetricsPath p then some Route.metrics
  else if matchPingPath p then some Route.ping
  else if matchHealthPath p then some Route.health
  else if matchRoleListPath p then some Route.roleList
  else if matchCredsPath p then some Route.credentials
  else if matchCatchAllPath p then some Route.passthrough
  else none

/-- The element-stack loop of Go `path.Clean` on a rooted path's
slash-separated elements: empty and `.` elements are dropped, `..` pops
the last kept element (or is dropped at the root — the `!rooted` branch
of the source loop is unreachable for rooted input), and any other
element is kept. -/
def cleanSegsGo (acc : List (List Char)) :
    List (List Char) → List (List Char)
  | [] => acc.reverse
  | s :: rest =>
    if s = [] ∨ s = ['.'] then cleanSegsGo acc rest
    else if s = ['.', '.'] then cleanSegsGo acc.tail rest
    else cleanSegsGo (s :: acc) rest

/-- Model of Go `path.Clean` restricted to rooted paths (its only use
here: mux's `cleanPath` prepends a slash first): keep the leading slash
and rebuild from the surviving elements; an empty survivor list is the
root.  A non-rooted argument is returned unchanged — unreachable from
`cleanPath`. -/
def pathCleanRooted (p : String) : String :=
  match p.data with
  | '/' :: rest =>
    match cleanSegsGo [] (splitCh '/' rest) with
    | [] => "/"
    | s :: t => String.mk ('/' :: joinCh '/' (s :: t))
  | _ => p

/-- Embeds gorilla/mux `cleanPath` (copied in mux from `net/http`):
empty becomes `"/"`, a missing leading slash is prepended, the path is
cleaned, and a trailing slash lost by `path.Clean` is restored unless
the result is the root. -/
def cleanPath (p : String) : String :=
  if p = "" then "/"
  else
    let q := if hasPrefixCh ['/'] p.data then p else "/" ++ p
    let np := pathCleanRooted q
    if q.data.getLast? = some '/' ∧ np ≠ "/" then np ++ "/" else np

/-- What the router's `ServeHTTP` does with a request path. -/
inductive Dispatch
  | redirect (location : String)
  | handler (r : Route)
  | notFound
deriving DecidableEq, Repr

/-- Embeds gorilla/mux `Router.ServeHTTP` with the default
`skipClean=false` and `useEncodedPath=false`: a path whose cleaned form
differs is answered with a 301 redirect to that form before any route is
tried; otherwise the first matching route's handler runs, and if no
route matches the router's not-found handler answers. -/
def dispatchFor (p : String) : Dispatch :=
  if cleanPath p ≠ p then Dispatch.redirect (cleanPath p)
  else
    match routeFor p with
    | some r => Dispatch.handler r
    | none => Dispatch.notFound

/-- Minimal model of a parsed `net/url.URL`: `Serve` only needs to know
parsing succeeded before it registers the proxy and builds the server. -/
structure URL where
  raw : String
deriving DecidableEq, Repr

/-- Minimal model of the `http.Server` built in `Serve`. -/
structure HTTPServer where
  addr : String
deriving DecidableEq, Repr

/-- The server's lifecycle-relevant state: its config and the
mutex-guarded server handle (`nil` until `Serve` constructs it). -/
structure ServerState where
  cfg : ServerConfig
  server : Option HTTPServer
deriving DecidableEq, Repr

/-- Embeds `NewWebServer`: a fresh server has no `http.Server` handle
(the collaborator fields are outside this model). -/
def NewWebServer (cfg : ServerConfig) : ServerState :=
  { cfg := cfg, server := none }

/-- Embeds `(s *Server) listenAddress()`: `fmt.Sprintf(":%d", port)`. -/
def listenAddress (cfg : ServerConfig) : String :=
  ":" ++ toString cfg.ListenPort

/-- Embeds `Serve` up to `ListenAndServe`, with `net/url.Parse` supplied
as an external function: route registration is pure (see `routeFor`); if
the configured metadata endpoint fails to parse, `Serve` returns that
error before the catch-all is registered, before the server object is
constructed and stored in the handle, and before the socket is bound;
otherwise the handle is set. -/
def Serve (urlParse : String → Except String URL) (st : ServerState) :
    Except String ServerState :=
  match urlParse st.cfg.MetadataEndpoint with
  | Except.error e => Except.error e
  | Except.ok _ =>
    Except.ok { st with server := some { addr := listenAddress st.cfg } }

/-- What one `Stop` call did: whether it invoked `server.Shutdown`, and
the deadline of the sub-context it passed (from
`context.WithTimeout(ctx, 5*time.Second)`). -/
structure StopEffect where
  initiatedShutdown : Bool
  shutdownDeadline : Option Nat
deriving DecidableEq, Repr

/-- Embeds `(s *Server) Stop(ctx)`: under the lock, a nil handle is an
immediate no-op; otherwise shutdown runs under a 5-second sub-context of
the caller's context.  `Stop` has no error return and never clears the
handle. -/
def Stop (ctxDeadline : Option Nat) (now : Nat) (st : ServerState) :
    StopEffect × ServerState :=
  match st.server with
  | none => ({ initiatedShutdown := false, shutdownDeadline := none }, st)
  | some _ =>
    ({ initiatedShutdown := true,
       shutdownDeadline := withTimeout ctxDeadline now 5 }, st)

theorem splitCh_ne_nil (sep : Char) (l : List Char) : splitCh sep l ≠ [] := by
  cases l with
  | nil => simp [splitCh]
  | cons c cs =>
    simp only [splitCh]
    cases splitCh sep cs with
    | nil => simp
    | cons h t =>
      by_cases hc : c = sep <;> simp [hc]

theorem splitCh_of_not_mem (sep : Char) (l : List Char) (h : sep ∉ l) :
    splitCh sep l = [l] := by
  induction l with
  | nil => rfl
  | cons c cs ih =>
    have hc : c ≠ sep := fun he => h (he ▸ List.mem_cons_self c cs)
    have hcs : sep ∉ cs := fun hm => h (List.mem_cons_of_mem c hm)
    simp [splitCh, ih hcs, hc]

theorem joinCh_cons_cons (sep : Char) (c : Char) (h : List Char)
    (t : List (List Char)) :
    joinCh sep ((c :: h) :: t) = c :: joinCh sep (h :: t) := by
  cases t <;> simp [joinCh]

/-- Splitting on a separator that occurs in `l` yields at least two parts,
and re-joining all parts but the last recovers exactly the prefix of `l`
before the last separator occurrence: the remaining suffix is
separator-free. -/
theorem splitCh_spec (sep : Char) (l : List Char) (h : sep ∈ l) :
    2 ≤ (splitCh sep l).length ∧
    ∃ suf, sep ∉ suf ∧
      l = joinCh sep ((splitCh sep l).dropLast) ++ sep :: suf := by
  induction l with
  | nil => cases h
  | cons c cs ih =>
    by_cases hc : c = sep
    · by_cases hmem : sep ∈ cs
      · obtain ⟨hlen, suf, hsuf, heq⟩ := ih hmem
        cases hsp : splitCh sep cs with
        | nil => exact absurd hsp (splitCh_ne_nil sep cs)
        | cons h0 t0 =>
          rw [hsp] at hlen heq
          cases t0 with
          | nil => simp at hlen
          | cons y ys =>
            refine ⟨by simp [splitCh, hsp, hc], suf, hsuf, ?_⟩
            simp only [splitCh, hsp, if_pos hc]
            simp only [List.dropLast_cons₂] at heq ⊢
            rw [joinCh, heq, hc]
            simp
      · refine ⟨?_, cs, hmem, ?_⟩ <;>
          simp [splitCh, splitCh_of_not_mem sep cs hmem, hc, joinCh]
    · have hmem : sep ∈ cs := by
        rcases List.mem_cons.mp h with h1 | h2
        · exact absurd h1.symm hc
        · exact h2
      obtain ⟨hlen, suf, hsuf, heq⟩ := ih hmem
      cases hsp : splitCh sep cs with
      | nil => exact absurd hsp (splitCh_ne_nil sep cs)
      | cons h0 t0 =>
        rw [hsp] at hlen heq
        cases t0 with
        | nil => simp at hlen
        | cons y ys =>
          refine ⟨by simp [splitCh, hsp, hc], suf, hsuf, ?_⟩
          simp only [splitCh, hsp, if_neg hc]
          simp only [List.dropLast_cons₂] at heq ⊢
          rw [joinCh_cons_cons, heq]
          simp

theorem mem_of_splitCh_length (sep : Char) (l : List Char)
    (h : 2 ≤ (splitCh sep l).length) : sep ∈ l := by
  by_contra hmem
  rw [splitCh_of_not_mem sep l hmem] at h
  simp at h

/-- C2: an input with at least one colon parses without error to everything
before the final colon (earlier segments re-joined with colons, with a
colon-free suffix after the split point); an input with no colon is an
error; `"10.0.0.5:51820"` yields `"10.0.0.5"` and `"::1:8080"` yields
`"::1"`. -/
theorem parseClientIP_correct (addr : String) :
    (':' ∈ addr.data →
      ∃ out suf, ParseClientIP addr = Except.ok out ∧ ':' ∉ suf ∧
        addr.data = out.data ++ ':' :: suf) ∧
    (':' ∉ addr.data → ∃ msg, ParseClientIP addr = Except.error msg) ∧
    ParseClientIP "10.0.0.5:51820" = Except.ok "10.0.0.5" ∧
    ParseClientIP "::1:8080" = Except.ok "::1" := by
  refine ⟨?_, ?_, by rfl, by rfl⟩
  · intro h
    obtain ⟨hlen, suf, hsuf, heq⟩ := splitCh_spec ':' addr.data h
    refine ⟨String.mk (joinCh ':' ((splitCh ':' addr.data).dropLast)), suf,
      ?_, hsuf, ?_⟩
    · unfold ParseClientIP
      have hnot : ¬ (splitCh ':' addr.data).length < 2 := by omega
      simp only [hnot, if_false, ← List.dropLast_eq_take]
    · exact heq
  · intro hno
    refine ⟨"incorrect format, expected ip:port, was: " ++ addr, ?_⟩
    unfold ParseClientIP
    rw [splitCh_of_not_mem ':' addr.data hno]
    simp

/-- C2 witness: the colon branch of `parseClientIP_correct` applied at the
concrete input `"10.0.0.5:51820"`. -/
theorem parseClientIP_correct_witness :
    ∃ out suf, ParseClientIP "10.0.0.5:51820" = Except.ok out ∧ ':' ∉ suf ∧
      "10.0.0.5:51820".data = out.data ++ ':' :: suf :=
  (parseClientIP_correct "10.0.0.5:51820").1 (by decide)

/-- C9: `NewConfig port` disables the identity-override escape hatch,
points at the fixed metadata endpoint, sets a 10-second `MaxElapsedTime`,
and listens on the given port. -/
theorem newConfig_defaults (port : Int) :
    (NewConfig port).AllowIPQuery = false ∧
    (NewConfig port).MetadataEndpoint = "http://169.254.169.254" ∧
    (NewConfig port).MaxElapsedTime = 10 ∧
    (NewConfig port).ListenPort = port :=
  ⟨rfl, rfl, rfl, rfl⟩

/-- C3: with `AllowIPQuery = false`, `clientIP` depends only on the remote
address: two requests with the same `RemoteAddr` but different present,
non-empty `ip` form parameters resolve to the same result. -/
theorem clientIP_override_ignored (cfg : ServerConfig) (r1 r2 : Request)
    (hq : cfg.AllowIPQuery = false) (ha : r1.remoteAddr = r2.remoteAddr)
    (h1 : r1.formIP ≠ "") (h2 : r2.formIP ≠ "") (hne : r1.formIP ≠ r2.formIP) :
    clientIP cfg r1 = clientIP cfg r2 := by
  simp [clientIP, hq, ha]

/-- C3 witness: concrete requests sharing a remote address but carrying
different non-empty overrides, under the default (disabled) config. -/
theorem clientIP_override_ignored_witness :
    clientIP (NewConfig 3838)
        { method := "GET", path := "/", formIP := "203.0.113.7",
          remoteAddr := "10.0.0.5:51820" } =
      clientIP (NewConfig 3838)
        { method := "GET", path := "/", formIP := "198.51.100.9",
          remoteAddr := "10.0.0.5:51820" } :=
  clientIP_override_ignored (NewConfig 3838) _ _ (by rfl) (by rfl)
    (by decide) (by decide) (by decide)

/-- C4: with `AllowIPQuery = true`, a non-empty `ip` form parameter is
returned verbatim with no error, whatever the remote address; an empty (or
absent, which `Form.Get` also reports as empty) parameter falls back to
parsing the remote address. -/
theorem clientIP_override_honored (cfg : ServerConfig) (req : Request)
    (hq : cfg.AllowIPQuery = true) :
    (req.formIP ≠ "" → clientIP cfg req = Except.ok req.formIP) ∧
    (req.formIP = "" → clientIP cfg req = ParseClientIP req.remoteAddr) := by
  constructor <;> intro h <;> simp [clientIP, hq, h]

/-- C4 witness: the override branch applied at a concrete request whose
remote address would have parsed to a different identity. -/
theorem clientIP_override_honored_witness :
    clientIP { NewConfig 3838 with AllowIPQuery := true }
        { method := "GET", path := "/", formIP := "203.0.113.7",
          remoteAddr := "10.0.0.5:51820" } =
      Except.ok "203.0.113.7" :=
  (clientIP_override_honored { NewConfig 3838 with AllowIPQuery := true }
    { method := "GET", path := "/", formIP := "203.0.113.7",
      remoteAddr := "10.0.0.5:51820" } (by rfl)).1 (by decide)

/-- C5: whatever deadline the inbound request context carries, the context
handed to the guarded handler has a deadline of at most `now +
handlerMaxDuration`, and `handlerMaxDuration` is the fixed constant 5
seconds; `errorHandler` receives no `ServerConfig`, so `MaxElapsedTime`
is never consulted. -/
theorem errorHandler_deadline_capped (name : String)
    (handle : Option Nat → Request → Int × Option String)
    (now : Nat) (reqDeadline : Option Nat) (req : Request) :
    ∃ t, (errorHandler name handle now reqDeadline req).handlerDeadline =
        some t ∧
      t ≤ now + handlerMaxDuration ∧ handlerMaxDuration = 5 := by
  cases reqDeadline with
  | none => exact ⟨now + 5, rfl, Nat.le_refl _, rfl⟩
  | some p => exact ⟨min p (now + 5), rfl, Nat.min_le_right _ _, rfl⟩

/-- C6: every guarded invocation marks exactly one meter, keyed by the
handler name and the bucket of the returned status, by one — whether or
not the handler errored (the meter list never depends on the error); the
bucket is `2xx`/`3xx`/`4xx`/`5xx` for statuses in 200–599 and `unknown`
outside that range. -/
theorem errorHandler_marks_one_meter (name : String)
    (handle : Option Nat → Request → Int × Option String)
    (now : Nat) (reqDeadline : Option Nat) (req : Request) :
    ((errorHandler name handle now reqDeadline req).metersMarked =
      [(getResponseMeterName name
          (errorHandler name handle now reqDeadline req).status, 1)]) ∧
    (errorHandler name handle now reqDeadline req).metersMarked.length = 1 ∧
    (∀ s : Int, getResponseMeterName name s =
      "handlerResponse-" ++ name ++ "." ++ getStatusBucket s) ∧
    (∀ s : Int,
      (200 ≤ s ∧ s < 300 → getStatusBucket s = "2xx") ∧
      (300 ≤ s ∧ s < 400 → getStatusBucket s = "3xx") ∧
      (400 ≤ s ∧ s < 500 → getStatusBucket s = "4xx") ∧
      (500 ≤ s ∧ s < 600 → getStatusBucket s = "5xx") ∧
      (s < 200 ∨ 600 ≤ s → getStatusBucket s = "unknown")) := by
  refine ⟨rfl, rfl, fun s => rfl, fun s => ?_⟩
  refine ⟨?_, ?_, ?_, ?_, ?_⟩ <;> intro h <;>
    simp only [getStatusBucket] <;> split_ifs <;> first | rfl | omega

/-- C6 witness: a handler returning status 204 with no error marks the
single meter `handlerResponse-health.2xx` by one. -/
theorem errorHandler_marks_one_meter_witness :
    (errorHandler "health" (fun _ _ => (204, none)) 0 none
        { method := "GET", path := "/health", formIP := "",
          remoteAddr := "10.0.0.5:51820" }).metersMarked =
      [("handlerResponse-health.2xx", 1)] ∧
    getStatusBucket 204 = "2xx" := by
  have h := errorHandler_marks_one_meter "health" (fun _ _ => (204, none))
    0 none
    { method := "GET", path := "/health", formIP := "",
      remoteAddr := "10.0.0.5:51820" }
  exact ⟨h.1.trans (by rfl), (h.2.2.2 204).1 (by decide)⟩

/-- C7: when the guarded handler returns an error, `errorHandler` writes
that error's message as the HTTP error body with the handler's status and
logs it with the request fields and the status; when the error is nil it
writes and logs nothing. -/
theorem errorHandler_error_response (name : String)
    (handle : Option Nat → Request → Int × Option String)
    (now : Nat) (reqDeadline : Option Nat) (req : Request) :
    (∀ e : String,
      (handle (withTimeout reqDeadline now handlerMaxDuration) req).2 =
          some e →
      (errorHandler name handle now reqDeadline req).wroteError =
          some (e, (errorHandler name handle now reqDeadline req).status) ∧
      (errorHandler name handle now reqDeadline req).logged =
          some (RequestFields req,
            (errorHandler name handle now reqDeadline req).status, e)) ∧
    ((handle (withTimeout reqDeadline now handlerMaxDuration) req).2 =
        none →
      (errorHandler name handle now reqDeadline req).wroteError = none ∧
      (errorHandler name handle now reqDeadline req).logged = none) := by
  constructor
  · intro e he
    constructor <;> simp [errorHandler, he]
  · intro he
    constructor <;> simp [errorHandler, he]

/-- C7 witness: a handler failing with 403 "forbidden" has that message
written with status 403 and logged; a succeeding handler triggers no
write. -/
theorem errorHandler_error_response_witness :
    (errorHandler "credentials" (fun _ _ => (403, some "forbidden")) 0 none
        { method := "GET",
          path := "/latest/meta-data/iam/security-credentials/admin",
          formIP := "", remoteAddr := "10.0.0.5:51820" }).wroteError =
      some ("forbidden", 403) ∧
    (errorHandler "roleName" (fun _ _ => (200, none)) 0 none
        { method := "GET",
          path := "/latest/meta-data/iam/security-credentials/",
          formIP := "", remoteAddr := "10.0.0.5:51820" }).wroteError =
      none := by
  have h1 := (errorHandler_error_response "credentials"
    (fun _ _ => (403, some "forbidden")) 0 none
    { method := "GET",
      path := "/latest/meta-data/iam/security-credentials/admin",
      formIP := "", remoteAddr := "10.0.0.5:51820" }).1 "forbidden" rfl
  have h2 := (errorHandler_error_response "roleName"
    (fun _ _ => (200, none)) 0 none
    { method := "GET",
      path := "/latest/meta-data/iam/security-credentials/",
      formIP := "", remoteAddr := "10.0.0.5:51820" }).2 rfl
  exact ⟨h1.1.trans (by rfl), h2.1⟩

theorem routeFor_isSome_of_match (p : String)
    (h : (matchMetricsPath p || matchPingPath p || matchHealthPath p ||
          matchRoleListPath p || matchCredsPath p ||
          matchCatchAllPath p) = true) :
    (routeFor p).isSome = true := by
  unfold routeFor
  repeat' split
  any_goals rfl
  simp_all

theorem routeFor_ne_passthrough_of_specific (p : String)
    (h : (matchMetricsPath p || matchPingPath p || matchHealthPath p ||
          matchRoleListPath p || matchCredsPath p) = true) :
    routeFor p ≠ some Route.passthrough := by
  unfold routeFor
  repeat' split
  all_goals simp_all

/-- C1 (amended): for every request path in canonical form (a `cleanPath`
fixpoint — any other path is answered with a clean-path 301 redirect
before a single pattern is tried) that at least one registered pattern
matches, the router dispatches to exactly one handler, and a path matched
by one of the five specific patterns is never dispatched to the
passthrough — the catch-all is registered last and loses every tie. -/
theorem dispatchFor_first_match (p : String)
    (hclean : cleanPath p = p)
    (h : (matchMetricsPath p || matchPingPath p || matchHealthPath p ||
          matchRoleListPath p || matchCredsPath p ||
          matchCatchAllPath p) = true) :
    (∃! r : Route, dispatchFor p = Dispatch.handler r) ∧
    ((matchMetricsPath p || matchPingPath p || matchHealthPath p ||
      matchRoleListPath p || matchCredsPath p) = true →
      dispatchFor p ≠ Dispatch.handler Route.passthrough) := by
  have hd : dispatchFor p =
      match routeFor p with
      | some r => Dispatch.handler r
      | none => Dispatch.notFound := by
    simp [dispatchFor, hclean]
  have hsome := routeFor_isSome_of_match p h
  rcases hr : routeFor p with _ | r
  · rw [hr] at hsome
    cases hsome
  · rw [hr] at hd
    constructor
    · refine ⟨r, hd, fun y hy => ?_⟩
      rw [hd] at hy
      exact (Dispatch.handler.inj hy).symm
    · intro hs hcontra
      rw [hd] at hcontra
      exact routeFor_ne_passthrough_of_specific p hs
        (by rw [hr, Dispatch.handler.inj hcontra])

/-- C1 witness: a concrete, already-canonical credentials path is
dispatched, uniquely, and not to the passthrough. -/
theorem dispatchFor_first_match_witness :
    (∃! r : Route,
      dispatchFor "/latest/meta-data/iam/security-credentials/s3-access" =
        Dispatch.handler r) ∧
    dispatchFor "/latest/meta-data/iam/security-credentials/s3-access" ≠
      Dispatch.handler Route.passthrough := by
  have h := dispatchFor_first_match
    "/latest/meta-data/iam/security-credentials/s3-access"
    (by decide) (by decide)
  exact ⟨h.1, h.2 (by decide)⟩

/-- C1 counterexample: two concrete request paths for which none of the
six registered handlers is selected, refuting the claim's "for every
request path" universal.  `"/a\nb"` (reachable as the request path
`/a%0Ab`) is canonical but matches no pattern — mux compiles `{path:.*}`
and `{role:.*}` to regexps in which `.` does not match a newline — so
the router's not-found handler answers; `"//x"` is slash-prefixed and
newline-free, yet the router answers it with a clean-path 301 redirect
to `"/x"` before trying any pattern. -/
theorem dispatchFor_no_handler_counterexample :
    dispatchFor "/a\nb" = Dispatch.notFound ∧
    cleanPath "/a\nb" = "/a\nb" ∧
    "/a\nb".data.head? = some '/' ∧
    dispatchFor "//x" = Dispatch.redirect "/x" ∧
    (∀ r : Route, dispatchFor "/a\nb" ≠ Dispatch.handler r) ∧
    (∀ r : Route, dispatchFor "//x" ≠ Dispatch.handler r) := by
  refine ⟨by decide, by decide, by decide, by decide,
    fun r => ?_, fun r => ?_⟩ <;> cases r <;> decide

/-- C8: `Stop` on an unset handle is a no-op (no shutdown initiated, no
error possible — the Go function has no error return — state unchanged);
on a set handle it initiates shutdown under a sub-context whose deadline
is at most 5 seconds from now, leaves the handle set, and a second `Stop`
call behaves identically. -/
theorem stop_lifecycle (d : Option Nat) (now : Nat) (st : ServerState) :
    (st.server = none →
      Stop d now st =
        ({ initiatedShutdown := false, shutdownDeadline := none }, st)) ∧
    (∀ srv, st.server = some srv →
      (Stop d now st).1.initiatedShutdown = true ∧
      (∃ t, (Stop d now st).1.shutdownDeadline = some t ∧ t ≤ now + 5) ∧
      (Stop d now st).2 = st ∧
      Stop d now (Stop d now st).2 = Stop d now st) := by
  constructor
  · intro h
    simp [Stop, h]
  · intro srv h
    have hs : Stop d now st =
        ({ initiatedShutdown := true,
           shutdownDeadline := withTimeout d now 5 }, st) := by
      simp [Stop, h]
    rw [hs]
    refine ⟨rfl, ?_, rfl, hs⟩
    cases d with
    | none => exact ⟨now + 5, rfl, Nat.le_refl _⟩
    | some q => exact ⟨min q (now + 5), rfl, Nat.min_le_right _ _⟩

/-- C8 witness: `Stop` before `Serve` ever ran is a no-op, and on a
running server it initiates shutdown. -/
theorem stop_lifecycle_witness :
    Stop none 0 (NewWebServer (NewConfig 3838)) =
      ({ initiatedShutdown := false, shutdownDeadline := none },
        NewWebServer (NewConfig 3838)) ∧
    (Stop none 0 { cfg := NewConfig 3838,
                   server := some { addr := ":3838" } }).1.initiatedShutdown
      = true := by
  refine ⟨(stop_lifecycle none 0 (NewWebServer (NewConfig 3838))).1 rfl, ?_⟩
  exact ((stop_lifecycle none 0
    { cfg := NewConfig 3838, server := some { addr := ":3838" } }).2
    { addr := ":3838" } rfl).1

/-- C10: if the configured metadata endpoint fails URL parsing, `Serve`
returns that parse error, the server handle stays unset, and `Stop` on
that state is still a no-op. -/
theorem serve_parse_error_no_server (urlParse : String → Except String URL)
    (st : ServerState) (e : String) (hinit : st.server = none)
    (hp : urlParse st.cfg.MetadataEndpoint = Except.error e) :
    Serve urlParse st = Except.error e ∧
    ∀ d now, Stop d now st =
      ({ initiatedShutdown := false, shutdownDeadline := none }, st) := by
  refine ⟨by simp [Serve, hp], fun d now => by simp [Stop, hinit]⟩

/-- C10 witness: a parser rejecting the endpoint makes `Serve` fail on a
fresh server, whose `Stop` remains a no-op. -/
theorem serve_parse_error_no_server_witness :
    Serve (fun _ => Except.error "parse fail")
        (NewWebServer (NewConfig 3838)) = Except.error "parse fail" ∧
    Stop none 0 (NewWebServer (NewConfig 3838)) =
      ({ initiatedShutdown := false, shutdownDeadline := none },
        NewWebServer (NewConfig 3838)) := by
  have h := serve_parse_error_no_server (fun _ => Except.error "parse fail")
    (NewWebServer (NewConfig 3838)) "parse fail" rfl rfl
  exact ⟨h.1, h.2 none 0⟩

end Kiam
